import Mathlib

set_option maxRecDepth 8192

/-!
Shallow embedding of the douyin-dh extraction service (`src/main.py`).

Python strings are modelled as `String` / `List Char`; the regex searches of
`clean_url` and `extract_video_id` are modelled by explicit leftmost scans
(`searchWith`) with per-position matchers that mirror the concrete patterns;
network effects are passed in as explicit oracle values; Python exceptions
are `Except`/`Option` failure values.
-/

/-- `stripPfx p s = some r` iff `p` is a prefix of `s` with remainder `r`. -/
def stripPfx : List Char → List Char → Option (List Char)
  | [], s => some s
  | _ :: _, [] => none
  | l :: ls, c :: cs => if l = c then stripPfx ls cs else none

/-- Leftmost search: try the matcher `m` at every suffix of the input, first
success wins (models Python `re.search` position scanning). -/
def searchWith (m : List Char → Option (List Char)) : List Char → Option (List Char)
  | [] => m []
  | c :: rest =>
    match m (c :: rest) with
    | some r => some r
    | none => searchWith m rest

theorem stripPfx_sound : ∀ {p s r : List Char}, stripPfx p s = some r → s = p ++ r
  | [], _, _, h => by simpa [stripPfx] using Option.some.inj h
  | _ :: _, [], _, h => by simp [stripPfx] at h
  | l :: ls, c :: cs, r, h => by
    by_cases hc : l = c
    · have h2 : stripPfx ls cs = some r := by simpa [stripPfx, hc] using h
      simp [hc, stripPfx_sound h2]
    · simp [stripPfx, hc] at h

theorem stripPfx_self_append : ∀ (p r : List Char), stripPfx p (p ++ r) = some r
  | [], _ => rfl
  | l :: ls, r => by simp [stripPfx, stripPfx_self_append ls r]

theorem searchWith_some {m : List Char → Option (List Char)} :
    ∀ {s d : List Char}, searchWith m s = some d →
      ∃ pre suf, s = pre ++ suf ∧ m suf = some d
  | [], _, h => ⟨[], [], rfl, h⟩
  | c :: rest, d, h => by
    cases hm : m (c :: rest) with
    | some r =>
      refine ⟨[], c :: rest, rfl, ?_⟩
      have : some r = some d := by simpa [searchWith, hm] using h
      simpa [hm] using this
    | none =>
      have h2 : searchWith m rest = some d := by simpa [searchWith, hm] using h
      obtain ⟨pre, suf, hs, hmm⟩ := searchWith_some h2
      exact ⟨c :: pre, suf, by simp [hs], hmm⟩

theorem searchWith_app {m : List Char → Option (List Char)} :
    ∀ (pre suf : List Char), m suf ≠ none → searchWith m (pre ++ suf) ≠ none
  | [], suf, h => by
    cases suf with
    | nil => simpa [searchWith] using h
    | cons c rest =>
      cases hm : m (c :: rest) with
      | some r => simp [searchWith, hm]
      | none => exact absurd hm h
  | c :: pre, suf, h => by
    cases hm : m (c :: (pre ++ suf)) with
    | some r => simp [searchWith, hm]
    | none =>
      have := searchWith_app pre suf h
      simpa [searchWith, hm] using this

/-! ### The concrete patterns of `clean_url` and `extract_video_id` -/

/-- Characters of the path pattern literal `/video/`. -/
def videoLit : List Char := ['/', 'v', 'i', 'd', 'e', 'o', '/']

/-- Characters of the path pattern literal `/note/`. -/
def noteLit : List Char := ['/', 'n', 'o', 't', 'e', '/']

/-- Characters of the query pattern literal `aweme_id=`. -/
def awemeLit : List Char := ['a', 'w', 'e', 'm', 'e', '_', 'i', 'd', '=']

/-- Characters of the query pattern literal `vid=`. -/
def vidLit : List Char := ['v', 'i', 'd', '=']

/-- Characters of the short-link scheme-and-host literal `https://v.douyin.com/`. -/
def httpsLit : List Char :=
  ['h', 't', 't', 'p', 's', ':', '/', '/', 'v', '.', 'd', 'o', 'u', 'y', 'i', 'n',
   '.', 'c', 'o', 'm', '/']

/-- Characters of the short-link scheme-and-host literal `http://v.douyin.com/`. -/
def httpLit : List Char :=
  ['h', 't', 't', 'p', ':', '/', '/', 'v', '.', 'd', 'o', 'u', 'y', 'i', 'n',
   '.', 'c', 'o', 'm', '/']

/-- Characters of the substring test literal `v.douyin.com` (line 181). -/
def vdouyinLit : List Char := ['v', '.', 'd', 'o', 'u', 'y', 'i', 'n', '.', 'c', 'o', 'm']

/-- Matcher for `lit(\d+)` anchored at a position: literal prefix, then a
non-empty maximal digit run, returning the captured digits (group 1). -/
def digitsAfter (lit : List Char) (s : List Char) : Option (List Char) :=
  match stripPfx lit s with
  | some r =>
    let d := r.takeWhile Char.isDigit
    if d.isEmpty then none else some d
  | none => none

/-- Matcher for `/(?:video|note)/(\d+)` anchored at a position. -/
def videoNoteAt (s : List Char) : Option (List Char) :=
  match digitsAfter videoLit s with
  | some d => some d
  | none => digitsAfter noteLit s

/-- Matcher for `https?://v\.douyin\.com/[a-zA-Z0-9]+` anchored at a position;
returns the whole match (group 0), greedy on both the optional `s` and the
token run. -/
def shortAt (s : List Char) : Option (List Char) :=
  match stripPfx httpsLit s with
  | some r =>
    let t := r.takeWhile Char.isAlphanum
    if t.isEmpty then none else some (httpsLit ++ t)
  | none =>
    match stripPfx httpLit s with
    | some r =>
      let t := r.takeWhile Char.isAlphanum
      if t.isEmpty then none else some (httpLit ++ t)
    | none => none

/-- Python `str.startswith` on character lists. -/
def startsWithL (pre s : List Char) : Bool := (stripPfx pre s).isSome

/-- Python substring test `needle in hay` on character lists. -/
def isSubstr (needle : List Char) : List Char → Bool
  | [] => needle.isEmpty
  | c :: rest => (stripPfx needle (c :: rest)).isSome || isSubstr needle rest

/-! ### Source functions: `clean_url`, `extract_video_id` (lines 40-63) -/

/-- `clean_url` (main.py lines 40-47): return the first short-link match if
any, else the input unchanged (both branches of the trailing code return the
input unchanged). -/
def clean_url (url : String) : String :=
  match searchWith shortAt url.toList with
  | some m => String.mk m
  | none =>
    if startsWithL "https://www.douyin.com/".toList url.toList then url else url

/-- `extract_video_id` (main.py lines 49-63): three regex searches attempted
in order, first success wins, `none` when all fail. -/
def extract_video_id (url : String) : Option String :=
  match searchWith videoNoteAt url.toList with
  | some d => some (String.mk d)
  | none =>
    match searchWith (digitsAfter awemeLit) url.toList with
    | some d => some (String.mk d)
    | none =>
      match searchWith (digitsAfter vidLit) url.toList with
      | some d => some (String.mk d)
      | none => none

/-! ### Declarative (spec-side) occurrence predicates -/

/-- A non-empty all-digit character run. -/
def DigitRun (d : List Char) : Prop := d ≠ [] ∧ ∀ c ∈ d, c.isDigit = true

/-- The input contains `lit` immediately followed by at least one digit. -/
def LitIdOccurs (lit u : List Char) : Prop :=
  ∃ pre d rest, DigitRun d ∧ u = pre ++ (lit ++ (d ++ rest))

/-- The input contains a `/video/<digits>` or `/note/<digits>` path segment. -/
def PathIdOccurs (u : List Char) : Prop := LitIdOccurs videoLit u ∨ LitIdOccurs noteLit u

/-- The input contains a short-link-shaped substring: `http` or `https`
scheme, host `v.douyin.com`, then a non-empty alphanumeric token. -/
def ShortLinkOccurs (u : List Char) : Prop :=
  ∃ pre sch tok rest, (sch = httpsLit ∨ sch = httpLit) ∧ tok ≠ [] ∧
    (∀ c ∈ tok, c.isAlphanum = true) ∧ u = pre ++ (sch ++ (tok ++ rest))

/-! ### Matcher soundness and completeness -/

theorem digitsAfter_sound {lit s d : List Char} (h : digitsAfter lit s = some d) :
    ∃ rest, s = lit ++ (d ++ rest) ∧ DigitRun d := by
  cases hp : stripPfx lit s with
  | none => simp [digitsAfter, hp] at h
  | some r =>
    by_cases he : (r.takeWhile Char.isDigit).isEmpty
    · simp [digitsAfter, hp, he] at h
    · have hd : d = r.takeWhile Char.isDigit := by
        have := h
        simp [digitsAfter, hp, he] at this
        exact this.symm
      refine ⟨r.dropWhile Char.isDigit, ?_, ?_, ?_⟩
      · rw [stripPfx_sound hp, hd, List.takeWhile_append_dropWhile]
      · rw [hd]
        simpa using he
      · intro c hc
        rw [hd] at hc
        exact List.mem_takeWhile_imp hc

theorem digitsAfter_complete {d : List Char} (lit rest : List Char) (hd : DigitRun d) :
    digitsAfter lit (lit ++ (d ++ rest)) ≠ none := by
  obtain ⟨hne, hdig⟩ := hd
  obtain ⟨c, d2, rfl⟩ := List.exists_cons_of_ne_nil hne
  have hc : c.isDigit = true := hdig c (by simp)
  simp [digitsAfter, stripPfx_self_append, List.takeWhile_cons_of_pos hc]

theorem videoNoteAt_sound {s d : List Char} (h : videoNoteAt s = some d) :
    (∃ rest, s = videoLit ++ (d ++ rest) ∧ DigitRun d) ∨
    (∃ rest, s = noteLit ++ (d ++ rest) ∧ DigitRun d) := by
  cases hv : digitsAfter videoLit s with
  | some d0 =>
    have : d0 = d := by simpa [videoNoteAt, hv] using h
    exact Or.inl (digitsAfter_sound (this ▸ hv))
  | none =>
    have hn : digitsAfter noteLit s = some d := by simpa [videoNoteAt, hv] using h
    exact Or.inr (digitsAfter_sound hn)

theorem videoNoteAt_complete {tag d : List Char} (rest : List Char)
    (htag : tag = videoLit ∨ tag = noteLit) (hd : DigitRun d) :
    videoNoteAt (tag ++ (d ++ rest)) ≠ none := by
  cases hv : digitsAfter videoLit (tag ++ (d ++ rest)) with
  | some d0 => simp [videoNoteAt, hv]
  | none =>
    cases htag with
    | inl h =>
      exact absurd hv (h ▸ digitsAfter_complete videoLit rest hd)
    | inr h =>
      have := digitsAfter_complete noteLit rest hd
      simpa [videoNoteAt, hv, h] using this

theorem shortAt_sound {s m : List Char} (h : shortAt s = some m) :
    ∃ sch tok rest, (sch = httpsLit ∨ sch = httpLit) ∧ tok ≠ [] ∧
      (∀ c ∈ tok, c.isAlphanum = true) ∧ s = sch ++ (tok ++ rest) ∧
      m = sch ++ tok := by
  cases hp : stripPfx httpsLit s with
  | some r =>
    by_cases he : (r.takeWhile Char.isAlphanum).isEmpty
    · simp [shortAt, hp, he] at h
    · have hm : m = httpsLit ++ r.takeWhile Char.isAlphanum := by
        have := h
        simp [shortAt, hp, he] at this
        exact this.symm
      refine ⟨httpsLit, r.takeWhile Char.isAlphanum, r.dropWhile Char.isAlphanum,
        Or.inl rfl, by simpa using he, fun c hc => List.mem_takeWhile_imp hc, ?_, hm⟩
      rw [stripPfx_sound hp, List.takeWhile_append_dropWhile]
  | none =>
    cases hp2 : stripPfx httpLit s with
    | some r =>
      by_cases he : (r.takeWhile Char.isAlphanum).isEmpty
      · simp [shortAt, hp, hp2, he] at h
      · have hm : m = httpLit ++ r.takeWhile Char.isAlphanum := by
          have := h
          simp [shortAt, hp, hp2, he] at this
          exact this.symm
        refine ⟨httpLit, r.takeWhile Char.isAlphanum, r.dropWhile Char.isAlphanum,
          Or.inr rfl, by simpa using he, fun c hc => List.mem_takeWhile_imp hc, ?_, hm⟩
        rw [stripPfx_sound hp2, List.takeWhile_append_dropWhile]
    | none => simp [shortAt, hp, hp2] at h

theorem shortAt_complete {sch tok : List Char} (rest : List Char)
    (hsch : sch = httpsLit ∨ sch = httpLit) (hne : tok ≠ [])
    (halnum : ∀ c ∈ tok, c.isAlphanum = true) :
    shortAt (sch ++ (tok ++ rest)) ≠ none := by
  obtain ⟨c, tok2, rfl⟩ := List.exists_cons_of_ne_nil hne
  have hc : c.isAlphanum = true := halnum c (by simp)
  cases hsch with
  | inl h =>
    subst h
    simp [shortAt, stripPfx_self_append, List.takeWhile_cons_of_pos hc]
  | inr h =>
    subst h
    cases hp : stripPfx httpsLit (httpLit ++ (c :: (tok2 ++ rest))) with
    | some r =>
      have := stripPfx_sound hp
      simp [httpsLit, httpLit, List.cons_eq_cons] at this
    | none =>
      have hgoal : shortAt (httpLit ++ (c :: (tok2 ++ rest))) ≠ none := by
        simp [shortAt, hp, stripPfx_self_append, List.takeWhile_cons_of_pos hc]
      simpa using hgoal

/-! ### Search-level characterizations -/

theorem searchDigits_none_iff (lit u : List Char) :
    searchWith (digitsAfter lit) u = none ↔ ¬ LitIdOccurs lit u := by
  constructor
  · rintro h ⟨pre, d, rest, hd, rfl⟩
    exact searchWith_app pre (lit ++ (d ++ rest)) (digitsAfter_complete lit rest hd) h
  · intro hno
    cases hs : searchWith (digitsAfter lit) u with
    | none => rfl
    | some d =>
      obtain ⟨pre, suf, rfl, hm⟩ := searchWith_some hs
      obtain ⟨rest, rfl, hd⟩ := digitsAfter_sound hm
      exact absurd ⟨pre, d, rest, hd, rfl⟩ hno

theorem searchVideoNote_none_iff (u : List Char) :
    searchWith videoNoteAt u = none ↔ ¬ PathIdOccurs u := by
  constructor
  · rintro h (⟨pre, d, rest, hd, rfl⟩ | ⟨pre, d, rest, hd, rfl⟩)
    · exact searchWith_app pre (videoLit ++ (d ++ rest))
        (videoNoteAt_complete rest (Or.inl rfl) hd) h
    · exact searchWith_app pre (noteLit ++ (d ++ rest))
        (videoNoteAt_complete rest (Or.inr rfl) hd) h
  · intro hno
    cases hs : searchWith videoNoteAt u with
    | none => rfl
    | some d =>
      obtain ⟨pre, suf, rfl, hm⟩ := searchWith_some hs
      rcases videoNoteAt_sound hm with ⟨rest, rfl, hd⟩ | ⟨rest, rfl, hd⟩
      · exact absurd (Or.inl ⟨pre, d, rest, hd, rfl⟩) hno
      · exact absurd (Or.inr ⟨pre, d, rest, hd, rfl⟩) hno

theorem searchShort_none_iff (u : List Char) :
    searchWith shortAt u = none ↔ ¬ ShortLinkOccurs u := by
  constructor
  · rintro h ⟨pre, sch, tok, rest, hsch, hne, halnum, rfl⟩
    exact searchWith_app pre (sch ++ (tok ++ rest))
      (shortAt_complete rest hsch hne halnum) h
  · intro hno
    cases hs : searchWith shortAt u with
    | none => rfl
    | some m =>
      obtain ⟨pre, suf, rfl, hm⟩ := searchWith_some hs
      obtain ⟨sch, tok, rest, hsch, hne, halnum, rfl, _⟩ := shortAt_sound hm
      exact absurd ⟨pre, sch, tok, rest, hsch, hne, halnum, rfl⟩ hno

theorem mk_toList (u : List Char) : (String.mk u).toList = u := rfl

/-- C2: `extract_video_id` attempts the three patterns in fixed order with the
first match winning: path `/video/<digits>` or `/note/<digits>` first, then
query `aweme_id=<digits>`, then query `vid=<digits>`; the digits returned come
from an occurrence of the highest-priority pattern present, and the result is
`none` exactly when none of the three patterns occurs in the input. -/
theorem extract_video_id_priority_spec (u : List Char) :
    (extract_video_id (String.mk u) = none ↔
      ¬ (PathIdOccurs u ∨ LitIdOccurs awemeLit u ∨ LitIdOccurs vidLit u)) ∧
    (PathIdOccurs u →
      ∃ pre tag d rest, (tag = videoLit ∨ tag = noteLit) ∧ DigitRun d ∧
        u = pre ++ (tag ++ (d ++ rest)) ∧
        extract_video_id (String.mk u) = some (String.mk d)) ∧
    (¬ PathIdOccurs u → LitIdOccurs awemeLit u →
      ∃ pre d rest, DigitRun d ∧ u = pre ++ (awemeLit ++ (d ++ rest)) ∧
        extract_video_id (String.mk u) = some (String.mk d)) ∧
    (¬ PathIdOccurs u → ¬ LitIdOccurs awemeLit u → LitIdOccurs vidLit u →
      ∃ pre d rest, DigitRun d ∧ u = pre ++ (vidLit ++ (d ++ rest)) ∧
        extract_video_id (String.mk u) = some (String.mk d)) := by
  have e1 : ∀ d, searchWith videoNoteAt u = some d →
      extract_video_id (String.mk u) = some (String.mk d) := by
    intro d h
    simp [extract_video_id, mk_toList, h]
  have e2 : ∀ d, searchWith videoNoteAt u = none →
      searchWith (digitsAfter awemeLit) u = some d →
      extract_video_id (String.mk u) = some (String.mk d) := by
    intro d h1 h2
    simp [extract_video_id, mk_toList, h1, h2]
  have e3 : ∀ d, searchWith videoNoteAt u = none →
      searchWith (digitsAfter awemeLit) u = none →
      searchWith (digitsAfter vidLit) u = some d →
      extract_video_id (String.mk u) = some (String.mk d) := by
    intro d h1 h2 h3
    simp [extract_video_id, mk_toList, h1, h2, h3]
  have e0 : searchWith videoNoteAt u = none →
      searchWith (digitsAfter awemeLit) u = none →
      searchWith (digitsAfter vidLit) u = none →
      extract_video_id (String.mk u) = none := by
    intro h1 h2 h3
    simp [extract_video_id, mk_toList, h1, h2, h3]
  refine ⟨⟨?_, ?_⟩, ?_, ?_, ?_⟩
  · intro h
    rintro (hp | ha | hv)
    · cases h1 : searchWith videoNoteAt u with
      | none => exact (searchVideoNote_none_iff u).mp h1 hp
      | some d => rw [e1 d h1] at h; cases h
    · cases h1 : searchWith videoNoteAt u with
      | some d => rw [e1 d h1] at h; cases h
      | none =>
        cases h2 : searchWith (digitsAfter awemeLit) u with
        | none => exact (searchDigits_none_iff awemeLit u).mp h2 ha
        | some d => rw [e2 d h1 h2] at h; cases h
    · cases h1 : searchWith videoNoteAt u with
      | some d => rw [e1 d h1] at h; cases h
      | none =>
        cases h2 : searchWith (digitsAfter awemeLit) u with
        | some d => rw [e2 d h1 h2] at h; cases h
        | none =>
          cases h3 : searchWith (digitsAfter vidLit) u with
          | none => exact (searchDigits_none_iff vidLit u).mp h3 hv
          | some d => rw [e3 d h1 h2 h3] at h; cases h
  · intro hno
    exact e0 ((searchVideoNote_none_iff u).mpr fun hp => hno (Or.inl hp))
      ((searchDigits_none_iff awemeLit u).mpr fun ha => hno (Or.inr (Or.inl ha)))
      ((searchDigits_none_iff vidLit u).mpr fun hv => hno (Or.inr (Or.inr hv)))
  · intro hp
    cases h1 : searchWith videoNoteAt u with
    | none => exact absurd hp (by simpa using (searchVideoNote_none_iff u).mp h1)
    | some d =>
      obtain ⟨pre, suf, rfl, hm⟩ := searchWith_some h1
      rcases videoNoteAt_sound hm with ⟨rest, rfl, hd⟩ | ⟨rest, rfl, hd⟩
      · exact ⟨pre, videoLit, d, rest, Or.inl rfl, hd, rfl, e1 d h1⟩
      · exact ⟨pre, noteLit, d, rest, Or.inr rfl, hd, rfl, e1 d h1⟩
  · intro hnp ha
    have h1 : searchWith videoNoteAt u = none := (searchVideoNote_none_iff u).mpr hnp
    cases h2 : searchWith (digitsAfter awemeLit) u with
    | none => exact absurd ha (by simpa using (searchDigits_none_iff awemeLit u).mp h2)
    | some d =>
      obtain ⟨pre, suf, rfl, hm⟩ := searchWith_some h2
      obtain ⟨rest, rfl, hd⟩ := digitsAfter_sound hm
      exact ⟨pre, d, rest, hd, rfl, e2 d h1 h2⟩
  · intro hnp hna hv
    have h1 : searchWith videoNoteAt u = none := (searchVideoNote_none_iff u).mpr hnp
    have h2 : searchWith (digitsAfter awemeLit) u = none :=
      (searchDigits_none_iff awemeLit u).mpr hna
    cases h3 : searchWith (digitsAfter vidLit) u with
    | none => exact absurd hv (by simpa using (searchDigits_none_iff vidLit u).mp h3)
    | some d =>
      obtain ⟨pre, suf, rfl, hm⟩ := searchWith_some h3
      obtain ⟨rest, rfl, hd⟩ := digitsAfter_sound hm
      exact ⟨pre, d, rest, hd, rfl, e3 d h1 h2 h3⟩

/-- C5: `clean_url` never raises (it is a total function); if the input
contains a short-link-shaped substring it returns exactly such a substring
(scheme, host `v.douyin.com`, and the maximal alphanumeric token there),
regardless of any surrounding text; otherwise it returns the input unchanged
(covering both the canonical-prefix case and arbitrary non-conforming
input). -/
theorem clean_url_spec (u : List Char) :
    (ShortLinkOccurs u →
      ∃ pre sch tok rest, (sch = httpsLit ∨ sch = httpLit) ∧ tok ≠ [] ∧
        (∀ c ∈ tok, c.isAlphanum = true) ∧ u = pre ++ (sch ++ (tok ++ rest)) ∧
        clean_url (String.mk u) = String.mk (sch ++ tok)) ∧
    (¬ ShortLinkOccurs u → clean_url (String.mk u) = String.mk u) := by
  constructor
  · intro hocc
    cases h1 : searchWith shortAt u with
    | none => exact absurd hocc (by simpa using (searchShort_none_iff u).mp h1)
    | some m =>
      obtain ⟨pre, suf, rfl, hm⟩ := searchWith_some h1
      obtain ⟨sch, tok, rest, hsch, hne, halnum, rfl, hmeq⟩ := shortAt_sound hm
      refine ⟨pre, sch, tok, rest, hsch, hne, halnum, rfl, ?_⟩
      simp [clean_url, mk_toList, h1, hmeq]
  · intro hno
    have h1 : searchWith shortAt u = none := (searchShort_none_iff u).mpr hno
    simp [clean_url, mk_toList, h1]

/-- C10 (implicit): identifier extraction is raw substring matching, not
URL-structure aware: any string containing `aweme_id=` (even as the tail of a
longer parameter name such as `fake_aweme_id=`) or `vid=` (even inside a
fragment) followed by digits yields those digits when no path form is
present, so non-URL inputs can still yield an identifier. -/
theorem extract_video_id_raw_substring_spec :
    extract_video_id "https://www.douyin.com/page?fake_aweme_id=123" = some "123" ∧
    extract_video_id "https://example.com/watch#vid=77" = some "77" ∧
    (∀ pre d rest, DigitRun d → ¬ PathIdOccurs (pre ++ (awemeLit ++ (d ++ rest))) →
      ∃ pre2 d2 rest2, DigitRun d2 ∧
        pre ++ (awemeLit ++ (d ++ rest)) = pre2 ++ (awemeLit ++ (d2 ++ rest2)) ∧
        extract_video_id (String.mk (pre ++ (awemeLit ++ (d ++ rest)))) =
          some (String.mk d2)) := by
  refine ⟨by decide, by decide, ?_⟩
  intro pre d rest hd hnp
  have h1 : searchWith videoNoteAt (pre ++ (awemeLit ++ (d ++ rest))) = none :=
    (searchVideoNote_none_iff _).mpr hnp
  have ha : LitIdOccurs awemeLit (pre ++ (awemeLit ++ (d ++ rest))) :=
    ⟨pre, d, rest, hd, rfl⟩
  cases h2 : searchWith (digitsAfter awemeLit) (pre ++ (awemeLit ++ (d ++ rest))) with
  | none => exact absurd ha (by simpa using (searchDigits_none_iff awemeLit _).mp h2)
  | some dd =>
    obtain ⟨p2, suf, hsplit, hm⟩ := searchWith_some h2
    obtain ⟨r2, hsuf, hdd⟩ := digitsAfter_sound hm
    refine ⟨p2, dd, r2, hdd, by rw [hsplit, hsuf], ?_⟩
    simp [extract_video_id, mk_toList, h1, h2]

/-! ### `follow_redirect` (main.py lines 65-73)

The network interaction is passed in as an oracle: `Except.ok final` models a
completed redirect chain whose final URL is `final`; `Except.error ()` models
any exception during the GET (timeout, DNS failure, connection refused). -/

/-- `follow_redirect`: return the final resolved URL on success, the original
input unchanged if the request raised. -/
def follow_redirect (net : Except Unit String) (short_url : String) : String :=
  match net with
  | Except.ok response_url => response_url
  | Except.error _ => short_url

/-- C6: the Redirect Resolver never raises (total function): on any network
failure it returns the original input string unchanged, and on success it
returns the final resolved URL. -/
theorem follow_redirect_spec (short_url : String) :
    follow_redirect (Except.error ()) short_url = short_url ∧
    (∀ final : String, follow_redirect (Except.ok final) short_url = final) :=
  ⟨rfl, fun _ => rfl⟩

/-! ### JSON values and Python operations on them

`fetch_data_with_httpx` manipulates the parsed response body with Python
truthiness (`data and ...`), membership (`'aweme_detail' in data`),
subscription (`data['aweme_detail']`, `url_list[0]`); each is modelled below,
with `Except.error ()` standing for a raised `TypeError`/`KeyError`/
`IndexError` (all caught by the function's blanket `except`). -/

inductive Json where
  | null : Json
  | bool : Bool → Json
  | num : Int → Json
  | str : String → Json
  | arr : List Json → Json
  | obj : List (String × Json) → Json

/-- Python truthiness of a JSON value. -/
def jsonTruthy : Json → Bool
  | Json.null => false
  | Json.bool b => b
  | Json.num n => n != 0
  | Json.str s => !s.isEmpty
  | Json.arr l => !l.isEmpty
  | Json.obj f => !f.isEmpty

/-- Python `k in l` for a list: equality of `k` with a string element. -/
def jsonStrMem (k : String) : List Json → Bool
  | [] => false
  | Json.str s :: rest => (s == k) || jsonStrMem k rest
  | _ :: rest => jsonStrMem k rest

/-- Python `k in j`: key membership for a dict, element membership for a
list, substring test for a string, `TypeError` otherwise. -/
def jsonContainsKey (j : Json) (k : String) : Except Unit Bool :=
  match j with
  | Json.obj f => Except.ok (f.any fun p => p.1 == k)
  | Json.arr l => Except.ok (jsonStrMem k l)
  | Json.str s => Except.ok (isSubstr k.toList s.toList)
  | _ => Except.error ()

/-- Python `j[k]` for a string key: dict lookup (`KeyError` when absent),
`TypeError` on every non-dict value. -/
def jsonGetKey (j : Json) (k : String) : Except Unit Json :=
  match j with
  | Json.obj f =>
    match f.find? (fun p => p.1 == k) with
    | some p => Except.ok p.2
    | none => Except.error ()
  | _ => Except.error ()

/-- Python `j[0]`: first element of a list, first character of a string
(`IndexError` when empty, `TypeError` on other values). -/
def jsonIndex0 (j : Json) : Except Unit Json :=
  match j with
  | Json.arr (x :: _) => Except.ok x
  | Json.arr [] => Except.error ()
  | Json.str s =>
    match s.toList with
    | c :: _ => Except.ok (Json.str (String.mk [c]))
    | [] => Except.error ()
  | _ => Except.error ()

/-- The response record built by both fetchers: the four keys of the dicts
returned from `fetch_data_with_httpx` and `get_data_with_playwright`. Field
values are JSON values, as in the Python dicts. -/
structure VideoRecord where
  aweme_id : Json
  desc : Json
  video_url : Json
  author : Json

/-- An `httpx` response: status code and the outcome of calling `.json()`
(`Except.error ()` when the body fails to parse). -/
structure HttpResp where
  status_code : Nat
  body : Except Unit Json

/-- The nested extraction of main.py lines 91-97, performed inside the `try`
block: any failed lookup raises and is caught by the blanket `except`. -/
def extractDetail (data : Json) : Except Unit VideoRecord := do
  let detail ← jsonGetKey data "aweme_detail"
  let a ← jsonGetKey detail "aweme_id"
  let d ← jsonGetKey detail "desc"
  let video ← jsonGetKey detail "video"
  let play_addr ← jsonGetKey video "play_addr"
  let url_list ← jsonGetKey play_addr "url_list"
  let v0 ← jsonIndex0 url_list
  let au ← jsonGetKey detail "author"
  let nick ← jsonGetKey au "nickname"
  pure ⟨a, d, v0, nick⟩

/-- The "basic info" fallback dict of main.py lines 100-105. -/
def unavailableRecord (url video_id : String) : VideoRecord :=
  ⟨Json.str video_id, Json.str "Video Description Unavailable",
   Json.str url, Json.str "Unknown"⟩

/-- The exception-path fallback dict of main.py lines 109-114. -/
def errorRecord (url video_id : String) : VideoRecord :=
  ⟨Json.str video_id, Json.str "Error retrieving video details",
   Json.str url, Json.str "Unknown"⟩

/-- `fetch_data_with_httpx` (main.py lines 75-114). The network interaction
is the oracle `net`: `Except.error ()` when the GET itself raises. On a 200
response the body is inspected; the nested extraction happens inside the
`try`, so any lookup failure lands in the exception path, while a clean
falsy/key-absent body or a non-200 status falls through to the basic-info
record. -/
def fetch_data_with_httpx (net : Except Unit HttpResp) (url video_id : String) :
    VideoRecord :=
  match net with
  | Except.error _ => errorRecord url video_id
  | Except.ok response =>
    if response.status_code = 200 then
      match response.body with
      | Except.error _ => errorRecord url video_id
      | Except.ok data =>
        if jsonTruthy data then
          match jsonContainsKey data "aweme_detail" with
          | Except.error _ => errorRecord url video_id
          | Except.ok false => unavailableRecord url video_id
          | Except.ok true =>
            match extractDetail data with
            | Except.ok rec => rec
            | Except.error _ => errorRecord url video_id
        else unavailableRecord url video_id
    else unavailableRecord url video_id

/-- C3: the Lightweight Fetcher never raises to its caller (it is a total
function): a clean non-200 status, a falsy 200 body, or a 200 body whose
membership test for `aweme_detail` cleanly yields false, all give the
basic-info record (input id, desc `Video Description Unavailable`, the input
URL, author `Unknown`); any exception (failed GET, unparsable body, a raising
membership test, or a failing nested lookup) gives the same shape with desc
`Error retrieving video details`; the two failure classes carry these two
distinct description strings. -/
theorem fetch_data_with_httpx_failure_spec (url video_id : String) :
    (unavailableRecord url video_id =
      ⟨Json.str video_id, Json.str "Video Description Unavailable",
       Json.str url, Json.str "Unknown"⟩) ∧
    (errorRecord url video_id =
      ⟨Json.str video_id, Json.str "Error retrieving video details",
       Json.str url, Json.str "Unknown"⟩) ∧
    (fetch_data_with_httpx (Except.error ()) url video_id = errorRecord url video_id) ∧
    (∀ st body, st ≠ 200 →
      fetch_data_with_httpx (Except.ok ⟨st, body⟩) url video_id =
        unavailableRecord url video_id) ∧
    (fetch_data_with_httpx (Except.ok ⟨200, Except.error ()⟩) url video_id =
      errorRecord url video_id) ∧
    (∀ data, jsonTruthy data = false →
      fetch_data_with_httpx (Except.ok ⟨200, Except.ok data⟩) url video_id =
        unavailableRecord url video_id) ∧
    (∀ data, jsonContainsKey data "aweme_detail" = Except.ok false →
      fetch_data_with_httpx (Except.ok ⟨200, Except.ok data⟩) url video_id =
        unavailableRecord url video_id) ∧
    (∀ data, jsonTruthy data = true →
      jsonContainsKey data "aweme_detail" = Except.error () →
      fetch_data_with_httpx (Except.ok ⟨200, Except.ok data⟩) url video_id =
        errorRecord url video_id) ∧
    (∀ data, jsonTruthy data = true →
      jsonContainsKey data "aweme_detail" = Except.ok true →
      extractDetail data = Except.error () →
      fetch_data_with_httpx (Except.ok ⟨200, Except.ok data⟩) url video_id =
        errorRecord url video_id) ∧
    (errorRecord url video_id).desc ≠ (unavailableRecord url video_id).desc := by
  refine ⟨rfl, rfl, rfl, ?_, rfl, ?_, ?_, ?_, ?_, ?_⟩
  · intro st body hst
    simp [fetch_data_with_httpx, hst]
  · intro data htr
    simp [fetch_data_with_httpx, htr]
  · intro data hcont
    by_cases htr : jsonTruthy data
    · simp [fetch_data_with_httpx, htr, hcont]
    · simp [fetch_data_with_httpx, htr]
  · intro data htr hcont
    simp [fetch_data_with_httpx, htr, hcont]
  · intro data htr hcont hext
    simp [fetch_data_with_httpx, htr, hcont, hext]
  · simp only [errorRecord, unavailableRecord]
    intro h
    have : ("Error retrieving video details" : String) = "Video Description Unavailable" :=
      Json.str.inj h
    simp at this

/-- C4: on a 200 response whose JSON body holds an `aweme_detail` object of
the expected nested shape, the Lightweight Fetcher returns exactly
`aweme_detail.aweme_id`, `aweme_detail.desc`, the first element of
`aweme_detail.video.play_addr.url_list`, and `aweme_detail.author.nickname`
as the four record fields, whatever those values are. -/
theorem fetch_data_with_httpx_success_spec (url video_id : String)
    (a d v0 nick : Json) (more : List Json) :
    fetch_data_with_httpx
      (Except.ok ⟨200, Except.ok (Json.obj [("aweme_detail", Json.obj
        [("aweme_id", a), ("desc", d),
         ("video", Json.obj [("play_addr", Json.obj
           [("url_list", Json.arr (v0 :: more))])]),
         ("author", Json.obj [("nickname", nick)])])])⟩)
      url video_id = ⟨a, d, v0, nick⟩ := rfl

/-- C9 (implicit): a 200 body that contains `aweme_detail` but lacks one of
the nested fields the mapping reads (here: no `author` key, or an empty
`video.play_addr.url_list`) makes the nested lookup raise inside the `try`,
so the Lightweight Fetcher returns the exception-path record with desc
`Error retrieving video details`, not `Video Description Unavailable`. -/
theorem fetch_data_with_httpx_missing_nested_spec (url video_id : String)
    (a d v0 nick : Json) (more : List Json) :
    (fetch_data_with_httpx
      (Except.ok ⟨200, Except.ok (Json.obj [("aweme_detail", Json.obj
        [("aweme_id", a), ("desc", d),
         ("video", Json.obj [("play_addr", Json.obj
           [("url_list", Json.arr (v0 :: more))])])])])⟩)
      url video_id = errorRecord url video_id) ∧
    (fetch_data_with_httpx
      (Except.ok ⟨200, Except.ok (Json.obj [("aweme_detail", Json.obj
        [("aweme_id", a), ("desc", d),
         ("video", Json.obj [("play_addr", Json.obj [("url_list", Json.arr [])])]),
         ("author", Json.obj [("nickname", nick)])])])⟩)
      url video_id = errorRecord url video_id) ∧
    (errorRecord url video_id).desc = Json.str "Error retrieving video details" ∧
    (errorRecord url video_id).desc ≠ Json.str "Video Description Unavailable" := by
  refine ⟨rfl, rfl, rfl, ?_⟩
  simp only [errorRecord]
  intro h
  have : ("Error retrieving video details" : String) = "Video Description Unavailable" :=
    Json.str.inj h
  simp at this

/-! ### Browser-driven fetcher (main.py lines 116-170)

The browser session is pure I/O, so its observable effects enter the model as
an environment: whether the launch/navigation/close sequence raises
(`raises`), the response-observer's captured slot after the first navigation
and settle (`capturedAfterLoad`), the page's current URL, the captured slot
after the optional direct detail-API navigation (`capturedAfterApi`), and the
page title. The post-navigation control flow (lines 150-163) is translated
faithfully against this environment. -/

structure PWEnv where
  raises : Option String
  capturedAfterLoad : Option VideoRecord
  current_url : String
  capturedAfterApi : Option VideoRecord
  title : String

/-- The body of `get_data_with_playwright`'s `try` block (lines 123-167):
`Except.error msg` models the Playwright sequence raising with message
`msg`. -/
def pwSequence (env : PWEnv) : Except String VideoRecord :=
  match env.raises with
  | some msg => Except.error msg
  | none =>
    match env.capturedAfterLoad with
    | some video_data => Except.ok video_data
    | none =>
      let video_id := extract_video_id env.current_url
      let idTruthy := match video_id with
        | some v => !(v == "")
        | none => false
      let video_data2 := if idTruthy then env.capturedAfterApi else none
      match video_data2 with
      | some video_data => Except.ok video_data
      | none =>
        let idstr := match video_id with
          | some v => if v == "" then "unknown" else v
          | none => "unknown"
        Except.ok ⟨Json.str idstr, Json.str env.title,
                   Json.str env.current_url, Json.str "Unknown"⟩

/-- Outcome of a FastAPI handler or helper: a returned value, or a raised
`HTTPException` with status code and detail string (the only exception kind
this model raises; it is a subclass of Python's `Exception`). -/
inductive PyResult (α : Type) where
  | ok : α → PyResult α
  | httpExc : Nat → String → PyResult α

/-- `get_data_with_playwright` (lines 116-170): raise 500 when the capability
is absent; otherwise run the browser sequence, converting any exception it
raises into a 500 `HTTPException` with a `Playwright error: ` detail. -/
def get_data_with_playwright (avail : Bool) (env : PWEnv) (_url : String) :
    PyResult VideoRecord :=
  if !avail then PyResult.httpExc 500 "Playwright not available"
  else
    match pwSequence env with
    | Except.error msg => PyResult.httpExc 500 ("Playwright error: " ++ msg)
    | Except.ok video_data => PyResult.ok video_data

/-! ### The request handler `get_douyin_info` (main.py lines 172-197) -/

/-- Lines 177-182 of the handler: clean the input, then follow redirects
when the cleaned URL contains `v.douyin.com`. -/
def routedUrl (redirectNet : Except Unit String) (rawUrl : String) : String :=
  let url := clean_url rawUrl
  if isSubstr vdouyinLit url.toList then follow_redirect redirectNet url else url

/-- `get_douyin_info` (lines 172-197). `avail` is the process-wide
`PLAYWRIGHT_AVAILABLE` flag; `redirectNet`, `pwEnv` and `net` are the network
oracles of the three outbound interactions. The `try`/`except Exception`
around the Playwright call catches every exception - `HTTPException`
included, since it subclasses `Exception` - and falls through to the httpx
fetcher. -/
def get_douyin_info (avail : Bool) (redirectNet : Except Unit String)
    (pwEnv : PWEnv) (net : Except Unit HttpResp) (rawUrl : String) :
    PyResult VideoRecord :=
  let url := routedUrl redirectNet rawUrl
  match extract_video_id url with
  | none => PyResult.httpExc 400 "Could not extract video ID from URL"
  | some video_id =>
    if video_id == "" then PyResult.httpExc 400 "Could not extract video ID from URL"
    else if avail then
      match get_data_with_playwright avail pwEnv url with
      | PyResult.ok video_data => PyResult.ok video_data
      | PyResult.httpExc _ _ => PyResult.ok (fetch_data_with_httpx net url video_id)
    else PyResult.ok (fetch_data_with_httpx net url video_id)

/-- C7: whenever no identifier can be extracted from the routed URL, the
handler raises 400 (identifier missing); in particular `not a url` yields the
400 for every value of the three network oracles and of the capability flag -
the outcome does not depend on any outbound interaction, so none is needed. -/
theorem get_douyin_info_400_spec (avail : Bool) (redirectNet : Except Unit String)
    (pwEnv : PWEnv) (net : Except Unit HttpResp) :
    (∀ rawUrl, extract_video_id (routedUrl redirectNet rawUrl) = none →
      get_douyin_info avail redirectNet pwEnv net rawUrl =
        PyResult.httpExc 400 "Could not extract video ID from URL") ∧
    get_douyin_info avail redirectNet pwEnv net "not a url" =
      PyResult.httpExc 400 "Could not extract video ID from URL" := by
  constructor
  · intro rawUrl h
    simp [get_douyin_info, h]
  · have hroute : routedUrl redirectNet "not a url" = "not a url" := rfl
    have hex : extract_video_id (routedUrl redirectNet "not a url") = none := by
      rw [hroute]
      decide
    simp [get_douyin_info, hex]

/-- C8: with the capability absent the handler never invokes the
Browser-Driven Fetcher (its outcome is the httpx record, independent of the
browser environment) and completes via the Lightweight Fetcher; with the
capability available but the browser sequence raising it falls back to the
Lightweight Fetcher; and under any capability value a valid identifier yields
some returned record. -/
theorem get_douyin_info_fallback_spec (redirectNet : Except Unit String)
    (pwEnv : PWEnv) (net : Except Unit HttpResp) (rawUrl vid : String)
    (hvid : extract_video_id (routedUrl redirectNet rawUrl) = some vid)
    (hne : vid ≠ "") :
    (get_douyin_info false redirectNet pwEnv net rawUrl =
      PyResult.ok (fetch_data_with_httpx net (routedUrl redirectNet rawUrl) vid)) ∧
    (∀ pwEnv2, get_douyin_info false redirectNet pwEnv net rawUrl =
      get_douyin_info false redirectNet pwEnv2 net rawUrl) ∧
    (∀ msg, pwEnv.raises = some msg →
      get_douyin_info true redirectNet pwEnv net rawUrl =
        PyResult.ok (fetch_data_with_httpx net (routedUrl redirectNet rawUrl) vid)) ∧
    (∀ avail, ∃ rec, get_douyin_info avail redirectNet pwEnv net rawUrl =
      PyResult.ok rec) := by
  have hbe : (vid == "") = false := by simpa using hne
  refine ⟨?_, ?_, ?_, ?_⟩
  · simp [get_douyin_info, hvid, hbe]
  · intro pwEnv2
    simp [get_douyin_info, hvid, hbe]
  · intro msg hmsg
    simp [get_douyin_info, hvid, hbe, get_data_with_playwright, pwSequence, hmsg]
  · intro avail
    cases avail with
    | false =>
      exact ⟨fetch_data_with_httpx net (routedUrl redirectNet rawUrl) vid,
        by simp [get_douyin_info, hvid, hbe]⟩
    | true =>
      cases hpw : get_data_with_playwright true pwEnv (routedUrl redirectNet rawUrl) with
      | ok video_data =>
        exact ⟨video_data, by simp [get_douyin_info, hvid, hbe, hpw]⟩
      | httpExc st detail =>
        exact ⟨fetch_data_with_httpx net (routedUrl redirectNet rawUrl) vid,
          by simp [get_douyin_info, hvid, hbe, hpw]⟩

/-- A concrete browser environment whose Playwright sequence raises. -/
def pwBoom : PWEnv := ⟨some "boom", none, "", none, ""⟩

theorem get_douyin_info_fallback_witness :
    (get_douyin_info false (Except.error ()) pwBoom (Except.error ())
        "https://www.douyin.com/video/999" =
      PyResult.ok (fetch_data_with_httpx (Except.error ())
        (routedUrl (Except.error ()) "https://www.douyin.com/video/999") "999")) ∧
    (∀ pwEnv2, get_douyin_info false (Except.error ()) pwBoom (Except.error ())
        "https://www.douyin.com/video/999" =
      get_douyin_info false (Except.error ()) pwEnv2 (Except.error ())
        "https://www.douyin.com/video/999") ∧
    (∀ msg, pwBoom.raises = some msg →
      get_douyin_info true (Except.error ()) pwBoom (Except.error ())
          "https://www.douyin.com/video/999" =
        PyResult.ok (fetch_data_with_httpx (Except.error ())
          (routedUrl (Except.error ()) "https://www.douyin.com/video/999") "999")) ∧
    (∀ avail, ∃ rec, get_douyin_info avail (Except.error ()) pwBoom (Except.error ())
        "https://www.douyin.com/video/999" = PyResult.ok rec) :=
  get_douyin_info_fallback_spec (Except.error ()) pwBoom (Except.error ())
    "https://www.douyin.com/video/999" "999" (by decide) (by decide)

/-- C1 counterexample: a request where the Browser-Driven Fetcher is invoked
and the Playwright sequence raises (`get_data_with_playwright` raises the 500
`HTTPException`), yet the endpoint does not respond 500: the handler's
`except Exception` catches the `HTTPException` and the response is the
Lightweight Fetcher's record. -/
theorem get_douyin_info_500_counterexample :
    (get_data_with_playwright true pwBoom
        (routedUrl (Except.error ()) "https://www.douyin.com/video/7777") =
      PyResult.httpExc 500 "Playwright error: boom") ∧
    (get_douyin_info true (Except.error ()) pwBoom (Except.error ())
        "https://www.douyin.com/video/7777" =
      PyResult.ok (errorRecord
        (routedUrl (Except.error ()) "https://www.douyin.com/video/7777") "7777")) ∧
    (∀ st detail, get_douyin_info true (Except.error ()) pwBoom (Except.error ())
        "https://www.douyin.com/video/7777" ≠ PyResult.httpExc st detail) := by
  refine ⟨rfl, rfl, ?_⟩
  intro st detail h
  exact PyResult.noConfusion
    ((show get_douyin_info true (Except.error ()) pwBoom (Except.error ())
        "https://www.douyin.com/video/7777" =
      PyResult.ok (errorRecord
        (routedUrl (Except.error ()) "https://www.douyin.com/video/7777") "7777")
      from rfl).symm.trans h)

/-- C1 (amended): when the Browser-Driven Fetcher is invoked (capability
available) and the Playwright sequence raises, `get_data_with_playwright`
raises a 500 `HTTPException`, but the handler's `except Exception` catches it
(HTTPException subclasses Exception) and the request falls back to the
Lightweight Fetcher, whose record is returned; no 500 reaches the client
from this path. -/
theorem get_douyin_info_playwright_broken_spec (redirectNet : Except Unit String)
    (pwEnv : PWEnv) (net : Except Unit HttpResp) (rawUrl vid msg : String)
    (hvid : extract_video_id (routedUrl redirectNet rawUrl) = some vid)
    (hne : vid ≠ "") (hmsg : pwEnv.raises = some msg) :
    (get_data_with_playwright true pwEnv (routedUrl redirectNet rawUrl) =
      PyResult.httpExc 500 ("Playwright error: " ++ msg)) ∧
    (get_douyin_info true redirectNet pwEnv net rawUrl =
      PyResult.ok (fetch_data_with_httpx net (routedUrl redirectNet rawUrl) vid)) := by
  have hbe : (vid == "") = false := by simpa using hne
  constructor
  · simp [get_data_with_playwright, pwSequence, hmsg]
  · simp [get_douyin_info, hvid, hbe, get_data_with_playwright, pwSequence, hmsg]

theorem get_douyin_info_playwright_broken_witness :
    (get_data_with_playwright true pwBoom
        (routedUrl (Except.error ()) "https://www.douyin.com/note/4242") =
      PyResult.httpExc 500 ("Playwright error: " ++ "boom")) ∧
    (get_douyin_info true (Except.error ()) pwBoom (Except.error ())
        "https://www.douyin.com/note/4242" =
      PyResult.ok (fetch_data_with_httpx (Except.error ())
        (routedUrl (Except.error ()) "https://www.douyin.com/note/4242") "4242")) :=
  get_douyin_info_playwright_broken_spec (Except.error ()) pwBoom (Except.error ())
    "https://www.douyin.com/note/4242" "4242" "boom" (by decide) (by decide) rfl
